import Mathlib

/-!
Verification development for the PyUoW execution-flow engine.

The engine composes business logic from typed execution nodes ("units")
linked into a singly linked chain by the `>>` operator, validated by
`build()`, and executed against a shared context.  Each unit invocation
returns a three-state `Result` (ok / error / empty); exceptions raised by
unit logic are caught at the unit boundary and converted into error
Results, while structural errors (reassigning a successor, chaining after
a final unit, reaching a non-final unit with no successor) are raised as
ordinary exceptions.

The production modules for the engine core (`pyuow.result`, `pyuow.unit`,
`pyuow.datapoint`, `pyuow.types`) are not present in this checkout - only
their tests and one async work-manager module are - so the definitions
below are modelled from the specification, constrained by the observable
behavior asserted in the test-suite.
-/

/-- Modelled from the spec: the error kinds raised by the engine
(`pyuow.unit` and `pyuow.datapoint` exceptions, plus Python's
`NotImplementedError` used for the flow-incomplete condition, plus
arbitrary user exceptions raised inside unit logic). -/
inductive PyErr where
  | notImplementedError
  | cannotReassignUnitError
  | finalUnitError
  | dataPointIsNotProducedError
  | userError (msg : String)
deriving DecidableEq, Repr

/-- Modelled from the spec: `pyuow.result.Result`, a three-state tagged
union `Ok(value) | Error(cause) | Empty`, immutable once constructed. -/
inductive Result (T : Type) where
  | ok (value : T)
  | error (cause : PyErr)
  | empty
deriving DecidableEq, Repr

/-- Modelled from the spec: `Result.is_error()` is true only for the
Error state. -/
def Result.is_error {T : Type} : Result T → Bool
  | .error _ => true
  | _ => false

/-- Modelled from the spec: a built flow (`pyuow.unit`, missing from this
checkout).  A built chain is a singly linked sequence of units; each node
carries a numeric label (standing for the Python object's identity) and
its user-supplied logic.  Raising Python code is embedded as a function
into `Except PyErr`:

* `runU`  - a RunUnit: `run(context)` mutates the context (state passing
  here) or raises; the successor link is `none` when `_next` is MISSING.
* `condU` - a ConditionalUnit: `condition(context)` returns a boolean or
  raises; `on_failure` is a full unit held outside the `next` chain.
* `finalU` - a FinalUnit: `finish(context)` returns a Result or raises;
  it never has a successor (enforced at chain construction).
-/
inductive FlowChain (Ctx OUT : Type) where
  | runU (label : Nat) (run : Ctx → Except PyErr Ctx)
      (next : Option (FlowChain Ctx OUT))
  | condU (label : Nat) (condition : Ctx → Except PyErr Bool)
      (onFailure : FlowChain Ctx OUT) (next : Option (FlowChain Ctx OUT))
  | finalU (label : Nat) (finish : Ctx → Except PyErr (Result OUT))

/-- Modelled from the spec: the `finish` method of `ErrorUnit(exc)` - it
ignores its context argument entirely and returns `Result.error(exc)`
without raising. -/
def errorUnitFinish {Ctx OUT : Type} (exc : PyErr) :
    Ctx → Except PyErr (Result OUT) :=
  fun _ => .ok (Result.error exc)

/-- Modelled from the spec: `ErrorUnit(exc)` - a FinalUnit specialization
whose `finish` always returns `Result.error(exc)` without touching the
context. -/
def ErrorUnit {Ctx OUT : Type} (label : Nat) (exc : PyErr) :
    FlowChain Ctx OUT :=
  .finalU label (errorUnitFinish exc)

/-- Modelled from the spec: execution of a built flow.  Invoking a unit
with a context traverses `next` / `on_failure` links until a terminal
unit's Result is returned.  Any exception raised by `run`, `condition` or
`finish` is caught at that unit's boundary and converted into an error
Result (`.ok (Result.error e)` - the flow returns normally).  Reaching a
non-final unit whose `next` is unset raises `NotImplementedError`
(`.error` - a fatal, uncaught exception).  The second component is the
trace of labels of the units actually invoked, in order. -/
def execFlow {Ctx OUT : Type} :
    FlowChain Ctx OUT → Ctx → Except PyErr (Result OUT) × List Nat
  | .runU l run next, ctx =>
    match run ctx with
    | .error e => (.ok (Result.error e), [l])
    | .ok ctx' =>
      match next with
      | none => (.error PyErr.notImplementedError, [l])
      | some n =>
        let r := execFlow n ctx'
        (r.1, l :: r.2)
  | .condU l condition onFailure next, ctx =>
    match condition ctx with
    | .error e => (.ok (Result.error e), [l])
    | .ok b =>
      if b then
        match next with
        | none => (.error PyErr.notImplementedError, [l])
        | some n =>
          let r := execFlow n ctx
          (r.1, l :: r.2)
      else
        let r := execFlow onFailure ctx
        (r.1, l :: r.2)
  | .finalU l finish, ctx =>
    match finish ctx with
    | .error e => (.ok (Result.error e), [l])
    | .ok r => (.ok r, [l])

/-- Modelled from the spec: the possible values of a unit's `_next` field
(`pyuow.types.MISSING` sentinel, Python `None`, or a reference to another
unit, named by its id in the store).  The code uses the MISSING sentinel,
never `None`, for an unset successor. -/
inductive Link where
  | missing
  | noneV
  | ref (id : Nat)
deriving DecidableEq, Repr

/-- Modelled from the spec: the linkage state of one unit object -
whether it is a FinalUnit (which admits no successor), its `_root`
back-reference and its `_next` successor field. -/
structure UNode where
  isFinal : Bool
  root : Nat
  next : Link
deriving DecidableEq, Repr

/-- A heap of unit objects; a unit's id is its index. -/
abbrev UStore := List UNode

/-- Reads a unit object out of the store (total, with an inert default
for out-of-range ids). -/
def getNode (s : UStore) (i : Nat) : UNode :=
  s.getD i ⟨false, i, .missing⟩

/-- Modelled from the spec: constructing a fresh unit.  A new unit is its
own one-node chain: `_root` points to itself and `_next` holds the
MISSING sentinel.  Returns the extended store and the new unit's id. -/
def mkUnit (isFinal : Bool) (s : UStore) : UStore × Nat :=
  (s ++ [⟨isFinal, s.length, .missing⟩], s.length)

/-- Modelled from the spec: the chaining operator `a >> b`.  Chaining
anything after a FinalUnit fails immediately with the final-unit error.
It fails with the cannot-reassign error if `a` already has a `_next`
assigned, or if `b` is already the root of another (multi-node) chain.
Otherwise it sets `a._next = b`, sets `b._root = a._root`, and returns
`b` as the new chain-tail handle. -/
def rshift (s : UStore) (a b : Nat) : Except PyErr (UStore × Nat) :=
  let na := getNode s a
  if na.isFinal then
    .error PyErr.finalUnitError
  else if na.next ≠ Link.missing then
    .error PyErr.cannotReassignUnitError
  else if (getNode s b).root = b ∧ (getNode s b).next ≠ Link.missing then
    .error PyErr.cannotReassignUnitError
  else
    let s₁ := s.set a { na with next := Link.ref b }
    let s₂ := s₁.set b { getNode s₁ b with root := na.root }
    .ok (s₂, b)

/-- Modelled from the spec: `build()` returns the chain's root node (via
the `_root` back-reference of the node it is called on) and performs no
mutation; the store is returned unchanged to make the absence of side
effects explicit. -/
def buildFlow (s : UStore) (i : Nat) : UStore × Nat :=
  (s, (getNode s i).root)

/-- Modelled from the spec: `pyuow.datapoint.BaseDataPointSpec`, an
immutable (name, declared-type) pair acting as a typed key; the declared
type is represented by its name.  Two specs are equal iff name and type
match. -/
structure DataPointSpec where
  name : String
  typeName : String
deriving DecidableEq, Repr

/-- Modelled from the spec: a DataPoint binds a spec to a concrete value
(value type fixed to `V` in the model). -/
structure DataPoint (V : Type) where
  spec : DataPointSpec
  value : V
deriving DecidableEq, Repr

/-- A sink recorded as the list of `add` calls it received, each call
holding the datapoints passed to it.  An `add` call that never reaches
the sink leaves the log unchanged, so partial writes are observable. -/
abbrev SinkLog (V : Type) := List (List (DataPoint V))

/-- Modelled from the spec: `ProducesDataPoints.to(sink).add(*datapoints)`
(`pyuow.datapoint`, missing from this checkout).  The proxy validates
that every supplied DataPoint's spec is declared in `_produces` and that
every declared spec is present among the supplied DataPoints; if either
check fails it raises the data-point-not-produced error before anything
is forwarded to the sink; otherwise it forwards the datapoints to the
sink's own `add` exactly once. -/
def producerAdd {V : Type} (produces : List DataPointSpec)
    (datapoints : List (DataPoint V)) (sink : SinkLog V) :
    SinkLog V × Except PyErr Unit :=
  if datapoints.any (fun d => ¬ d.spec ∈ produces) then
    (sink, .error PyErr.dataPointIsNotProducedError)
  else if produces.any
      (fun sp => ¬ sp ∈ datapoints.map DataPoint.spec) then
    (sink, .error PyErr.dataPointIsNotProducedError)
  else
    (sink ++ [datapoints], .ok ())

/-- Modelled from the spec: an asynchronous computation, as much of it as
the contract needs - a value reached after a number of suspension
(await) points. -/
inductive AsyncM (α : Type) where
  | pure (a : α)
  | suspend (k : AsyncM α)

/-- Runs an asynchronous computation to its value. -/
def AsyncM.run {α : Type} : AsyncM α → α
  | .pure a => a
  | .suspend k => k.run

/-- Counts the suspension (await) points of an asynchronous
computation. -/
def AsyncM.awaitCount {α : Type} : AsyncM α → Nat
  | .pure _ => 0
  | .suspend k => k.awaitCount + 1

/-- `BaseUnitProxy.do_with` from `src/pyuow/work/aio/base.py`: it awaits
`self(context)` and returns its Result - a pure forwarding layer. -/
def doWith {Ctx OUT : Type} (unit : Ctx → AsyncM (Result OUT))
    (context : Ctx) : AsyncM (Result OUT) :=
  unit context

/-- Modelled from the spec: the asynchronous producer proxy
(`pyuow.datapoint.aio`, missing from this checkout).  It applies exactly
the same validation, in the same order, as the synchronous proxy; only
the forwarding to the sink's `add` is awaited, so a validation failure
raises before any suspension point. -/
def aioProducerAdd {V : Type} (produces : List DataPointSpec)
    (datapoints : List (DataPoint V)) (sink : SinkLog V) :
    AsyncM (SinkLog V × Except PyErr Unit) :=
  if datapoints.any (fun d => ¬ d.spec ∈ produces) then
    .pure (sink, .error PyErr.dataPointIsNotProducedError)
  else if produces.any
      (fun sp => ¬ sp ∈ datapoints.map DataPoint.spec) then
    .pure (sink, .error PyErr.dataPointIsNotProducedError)
  else
    .suspend (.pure (sink ++ [datapoints], .ok ()))

/-- A chain of RunUnits whose `run` logic never raises, given by a list of
label / context-transformer pairs, placed before a tail chain.  Used to
state properties about units reached mid-flow. -/
def chainOfRuns {Ctx OUT : Type} :
    List (Nat × (Ctx → Ctx)) → FlowChain Ctx OUT → FlowChain Ctx OUT
  | [], tail => tail
  | (l, f) :: rest, tail =>
    .runU l (fun c => .ok (f c)) (some (chainOfRuns rest tail))

/-- The context reaching the tail of `chainOfRuns`. -/
def applyRuns {Ctx : Type} : List (Nat × (Ctx → Ctx)) → Ctx → Ctx
  | [], ctx => ctx
  | (_, f) :: rest, ctx => applyRuns rest (f ctx)

theorem execFlow_chainOfRuns {Ctx OUT : Type}
    (ps : List (Nat × (Ctx → Ctx))) (tail : FlowChain Ctx OUT) (ctx : Ctx) :
    execFlow (chainOfRuns ps tail) ctx =
      ((execFlow tail (applyRuns ps ctx)).1,
        ps.map Prod.fst ++ (execFlow tail (applyRuns ps ctx)).2) := by
  induction ps generalizing ctx with
  | nil => simp [chainOfRuns, applyRuns]
  | cons p rest ih =>
    obtain ⟨l, f⟩ := p
    simp [chainOfRuns, applyRuns, execFlow, ih]

/-- Claim C9: for every context and every fixed cause, `ErrorUnit(exc)`'s
`finish` returns an Error Result (`is_error()` is true) wrapping the
cause, and the context is never read or mutated: the outcome is the same
function value for every context. -/
theorem errorUnit_finish_spec {Ctx OUT : Type} (exc : PyErr) (ctx : Ctx) :
    ∃ r : Result OUT, errorUnitFinish exc ctx = .ok r ∧
      r.is_error = true ∧ r = Result.error exc ∧
      ∀ ctx' : Ctx,
        @errorUnitFinish Ctx OUT exc ctx' = errorUnitFinish exc ctx :=
  ⟨Result.error exc, rfl, rfl, rfl, fun _ => rfl⟩

/-- Claim C1: in any built flow (an arbitrary list of succeeding RunUnits
before the failing unit, an arbitrary rest of the chain after it), an
exception raised inside `run`, `condition` or `finish` is caught at that
unit's boundary: the flow returns normally (no exception propagates) with
an Error Result wrapping the exception as its final Result, and the trace
ends at the failing unit, so no later unit is invoked (the outcome is
independent of the successor). -/
theorem unitLogic_exception_caught {Ctx OUT : Type}
    (ps : List (Nat × (Ctx → Ctx))) (ctx : Ctx) (e : PyErr) :
    (∀ (l : Nat) (run : Ctx → Except PyErr Ctx)
        (next : Option (FlowChain Ctx OUT)),
      run (applyRuns ps ctx) = .error e →
      execFlow (chainOfRuns ps (.runU l run next)) ctx =
        (.ok (Result.error e), ps.map Prod.fst ++ [l])) ∧
    (∀ (l : Nat) (condition : Ctx → Except PyErr Bool)
        (onFailure : FlowChain Ctx OUT)
        (next : Option (FlowChain Ctx OUT)),
      condition (applyRuns ps ctx) = .error e →
      execFlow (chainOfRuns ps (.condU l condition onFailure next)) ctx =
        (.ok (Result.error e), ps.map Prod.fst ++ [l])) ∧
    (∀ (l : Nat) (finish : Ctx → Except PyErr (Result OUT)),
      finish (applyRuns ps ctx) = .error e →
      execFlow (chainOfRuns ps (.finalU l finish)) ctx =
        (.ok (Result.error e), ps.map Prod.fst ++ [l])) := by
  refine ⟨?_, ?_, ?_⟩
  · intro l run next h
    rw [execFlow_chainOfRuns]
    simp [execFlow, h]
  · intro l condition onFailure next h
    rw [execFlow_chainOfRuns]
    cases next <;> simp [execFlow, h]
  · intro l finish h
    rw [execFlow_chainOfRuns]
    simp [execFlow, h]

/-- Concrete instance of claim C1: a RunUnit, a ConditionalUnit and a
FinalUnit whose logic raises, each placed after one succeeding RunUnit
and before a further unit, all yield the flow's final Error Result. -/
theorem unitLogic_exception_caught_witness :
    (execFlow (chainOfRuns [(7, fun c => c + 1)]
        (.runU 0 (fun _ => .error (PyErr.userError "boom"))
          (some (ErrorUnit 1 (PyErr.userError "x"))) : FlowChain Nat Nat))
        0 =
      (.ok (Result.error (PyErr.userError "boom")), [7, 0])) ∧
    (execFlow (chainOfRuns [(7, fun c => c + 1)]
        (.condU 0 (fun _ => .error (PyErr.userError "boom"))
          (ErrorUnit 2 (PyErr.userError "y"))
          (some (ErrorUnit 1 (PyErr.userError "x"))) : FlowChain Nat Nat))
        0 =
      (.ok (Result.error (PyErr.userError "boom")), [7, 0])) ∧
    (execFlow (chainOfRuns [(7, fun c => c + 1)]
        (.finalU 0 (fun _ => .error (PyErr.userError "boom"))
          : FlowChain Nat Nat)) 0 =
      (.ok (Result.error (PyErr.userError "boom")), [7, 0])) :=
  ⟨(unitLogic_exception_caught [(7, fun c => c + 1)] 0
      (PyErr.userError "boom")).1 0 _ _ rfl,
    (unitLogic_exception_caught [(7, fun c => c + 1)] 0
      (PyErr.userError "boom")).2.1 0 _ _ _ rfl,
    (unitLogic_exception_caught [(7, fun c => c + 1)] 0
      (PyErr.userError "boom")).2.2 0 _ rfl⟩

/-- Claim C2: a ConditionalUnit linked to a successor delegates to the
successor when its condition returns true; when the condition returns
false it invokes `on_failure` exactly once with the same context and
returns its Result unchanged, the successor is never invoked (the outcome
is independent of the successor), and for `on_failure = ErrorUnit(cause)`
the flow's Result is an Error Result wrapping the cause. -/
theorem conditionalUnit_branching {Ctx OUT : Type}
    (l : Nat) (condition : Ctx → Except PyErr Bool)
    (onFailure succ : FlowChain Ctx OUT) (ctx : Ctx) :
    (condition ctx = .ok true →
      execFlow (.condU l condition onFailure (some succ)) ctx =
        ((execFlow succ ctx).1, l :: (execFlow succ ctx).2)) ∧
    (condition ctx = .ok false →
      execFlow (.condU l condition onFailure (some succ)) ctx =
        ((execFlow onFailure ctx).1, l :: (execFlow onFailure ctx).2) ∧
      ∀ succ' : FlowChain Ctx OUT,
        execFlow (.condU l condition onFailure (some succ')) ctx =
          execFlow (.condU l condition onFailure (some succ)) ctx) ∧
    (∀ (le : Nat) (exc : PyErr), onFailure = ErrorUnit le exc →
      condition ctx = .ok false →
      execFlow (.condU l condition onFailure (some succ)) ctx =
        (.ok (Result.error exc), [l, le])) := by
  refine ⟨fun h => ?_, fun h => ⟨?_, fun succ' => ?_⟩, ?_⟩
  · simp [execFlow, h]
  · simp [execFlow, h]
  · simp [execFlow, h]
  · intro le exc honF h
    subst honF
    simp [execFlow, h, ErrorUnit, errorUnitFinish]

/-- Concrete instance of claim C2: with a condition deciding whether the
context equals 1, the true branch returns the successor's Ok Result and
the false branch returns the ErrorUnit's Error Result without invoking
the successor. -/
theorem conditionalUnit_branching_witness :
    (execFlow (.condU 0 (fun c => .ok (c = 1))
        (ErrorUnit 2 (PyErr.userError "cause"))
        (some (.finalU 1 (fun _ => .ok (Result.ok 42))))
        : FlowChain Nat Nat) 1 =
      (.ok (Result.ok 42), [0, 1])) ∧
    (execFlow (.condU 0 (fun c => .ok (c = 1))
        (ErrorUnit 2 (PyErr.userError "cause"))
        (some (.finalU 1 (fun _ => .ok (Result.ok 42))))
        : FlowChain Nat Nat) 5 =
      (.ok (Result.error (PyErr.userError "cause")), [0, 2])) :=
  ⟨by
    have h := (conditionalUnit_branching 0 (fun c => .ok (c = 1))
      (ErrorUnit 2 (PyErr.userError "cause"))
      (.finalU 1 (fun _ => .ok (Result.ok 42))) 1).1 rfl
    exact h.trans (by simp [execFlow]),
   (conditionalUnit_branching 0 (fun c => .ok (c = 1))
      (ErrorUnit 2 (PyErr.userError "cause"))
      (.finalU 1 (fun _ => .ok (Result.ok 42))) 5).2.2 2
      (PyErr.userError "cause") rfl rfl⟩

/-- Claim C4: in any built flow (an arbitrary list of succeeding RunUnits
before it), reaching a non-final unit - a RunUnit whose `run` completes,
or a ConditionalUnit whose condition returns true - whose `next` is unset
raises `NotImplementedError` (a fatal, uncaught exception) rather than
returning a normal Result. -/
theorem flow_incomplete_fatal {Ctx OUT : Type}
    (ps : List (Nat × (Ctx → Ctx))) (ctx : Ctx) (l : Nat) :
    (∀ (run : Ctx → Except PyErr Ctx) (ctx₂ : Ctx),
      run (applyRuns ps ctx) = .ok ctx₂ →
      execFlow (chainOfRuns ps (.runU l run none) : FlowChain Ctx OUT)
          ctx =
        (.error PyErr.notImplementedError, ps.map Prod.fst ++ [l])) ∧
    (∀ (condition : Ctx → Except PyErr Bool)
        (onFailure : FlowChain Ctx OUT),
      condition (applyRuns ps ctx) = .ok true →
      execFlow (chainOfRuns ps (.condU l condition onFailure none)) ctx =
        (.error PyErr.notImplementedError, ps.map Prod.fst ++ [l])) := by
  constructor
  · intro run ctx₂ h
    rw [execFlow_chainOfRuns]
    simp [execFlow, h]
  · intro condition onFailure h
    rw [execFlow_chainOfRuns]
    simp [execFlow, h]

/-- Concrete instance of claim C4: a RunUnit and a ConditionalUnit with
no successor, each after one succeeding RunUnit, raise
`NotImplementedError`. -/
theorem flow_incomplete_fatal_witness :
    (execFlow (chainOfRuns [(7, fun c => c + 1)]
        (.runU 0 (fun c => .ok c) none) : FlowChain Nat Nat) 0 =
      (.error PyErr.notImplementedError, [7, 0])) ∧
    (execFlow (chainOfRuns [(7, fun c => c + 1)]
        (.condU 0 (fun _ => .ok true)
          (ErrorUnit 2 (PyErr.userError "y")) none) : FlowChain Nat Nat)
        0 =
      (.error PyErr.notImplementedError, [7, 0])) :=
  ⟨(flow_incomplete_fatal [(7, fun c => c + 1)] 0 0).1 (fun c => .ok c) 1
      rfl,
    (flow_incomplete_fatal [(7, fun c => c + 1)] 0 0).2
      (fun _ => .ok true) (ErrorUnit 2 (PyErr.userError "y")) rfl⟩

theorem getNode_append_self (s : UStore) (x : UNode) :
    getNode (s ++ [x]) s.length = x := by
  simp [getNode, List.getD_append_right]

theorem getNode_append_lt (s : UStore) (x : UNode) {i : Nat}
    (h : i < s.length) : getNode (s ++ [x]) i = getNode s i := by
  simp [getNode, List.getD, List.getElem?_append, h]

theorem getNode_set_self (s : UStore) (a : Nat) (x : UNode)
    (h : a < s.length) : getNode (s.set a x) a = x := by
  simp [getNode, List.getD]
  rw [List.getElem?_set_self h]
  simp

theorem getNode_set_ne (s : UStore) (a : Nat) (x : UNode) {i : Nat}
    (h : i ≠ a) : getNode (s.set a x) i = getNode s i := by
  simp [getNode, List.getD]
  rw [List.getElem?_set_ne h.symm]

/-- Allocates two fresh units over a store: the store after both
allocations, then the ids of the first and second unit. -/
def twoFresh (s : UStore) : UStore × Nat × Nat :=
  let p := mkUnit false s
  let q := mkUnit false p.1
  (q.1, p.2, q.2)

theorem twoFresh_ids (s : UStore) :
    (twoFresh s).2.1 = s.length ∧ (twoFresh s).2.2 = s.length + 1 :=
  ⟨rfl, by simp [twoFresh, mkUnit]⟩

theorem twoFresh_nodes (s : UStore) :
    getNode (twoFresh s).1 s.length = ⟨false, s.length, Link.missing⟩ ∧
    getNode (twoFresh s).1 (s.length + 1) =
      ⟨false, s.length + 1, Link.missing⟩ ∧
    (twoFresh s).1.length = s.length + 2 := by
  refine ⟨?_, ?_, by simp [twoFresh, mkUnit]⟩
  · show getNode ((s ++ _) ++ _) s.length = _
    rw [getNode_append_lt _ _ (by simp), getNode_append_self]
  · show getNode ((s ++ [⟨false, s.length, Link.missing⟩]) ++ _)
      (s.length + 1) = _
    have hl : (s ++ [(⟨false, s.length, Link.missing⟩ : UNode)]).length =
        s.length + 1 := by simp
    rw [← hl, getNode_append_self]
    simp [mkUnit]

theorem rshift_twoFresh (s : UStore) :
    rshift (twoFresh s).1 s.length (s.length + 1) =
      .ok ((((twoFresh s).1.set s.length
          ⟨false, s.length, Link.ref (s.length + 1)⟩).set (s.length + 1)
            ⟨false, s.length, Link.missing⟩),
        s.length + 1) := by
  have h₁ := (twoFresh_nodes s).1
  have h₂ := (twoFresh_nodes s).2.1
  simp only [rshift, h₁, h₂]
  rw [getNode_set_ne _ _ _ (by omega), h₂]
  simp

/-- Claim C6: for two freshly constructed units `a` and `b` (over any
pre-existing store), `a >> b` succeeds and returns `b` as the new
chain-tail handle, sets `a._next = b`, sets `b._root` to `a`'s root (so
both nodes share root `a`), and leaves `b._next` unset. -/
theorem twoFresh_rshift_nodes (s : UStore) :
    ∃ s₃ : UStore,
      rshift (twoFresh s).1 s.length (s.length + 1) =
        .ok (s₃, s.length + 1) ∧
      getNode s₃ s.length =
        ⟨false, s.length, Link.ref (s.length + 1)⟩ ∧
      getNode s₃ (s.length + 1) = ⟨false, s.length, Link.missing⟩ := by
  have hlen := (twoFresh_nodes s).2.2
  have e3 : getNode ((twoFresh s).1.set s.length
      ⟨false, s.length, Link.ref (s.length + 1)⟩) s.length =
      ⟨false, s.length, Link.ref (s.length + 1)⟩ :=
    getNode_set_self _ _ _ (by rw [hlen]; omega)
  have e2 : getNode (((twoFresh s).1.set s.length
      ⟨false, s.length, Link.ref (s.length + 1)⟩).set (s.length + 1)
      ⟨false, s.length, Link.missing⟩) s.length =
      getNode ((twoFresh s).1.set s.length
        ⟨false, s.length, Link.ref (s.length + 1)⟩) s.length :=
    getNode_set_ne _ _ _ (by omega)
  have e1 : getNode (((twoFresh s).1.set s.length
      ⟨false, s.length, Link.ref (s.length + 1)⟩).set (s.length + 1)
      ⟨false, s.length, Link.missing⟩) (s.length + 1) =
      ⟨false, s.length, Link.missing⟩ :=
    getNode_set_self _ _ _ (by rw [List.length_set, hlen]; omega)
  exact ⟨_, rshift_twoFresh s, e2.trans e3, e1⟩

/-- Claim C6: for two freshly constructed units `a` and `b` (over any
pre-existing store), `a >> b` succeeds and returns `b` as the new
chain-tail handle, sets `a._next = b`, sets `b._root` to `a`'s root (so
both nodes share root `a`), and leaves `b._next` unset. -/
theorem rshift_fresh_units (s : UStore) :
    ∃ s₃ : UStore,
      rshift (twoFresh s).1 (twoFresh s).2.1 (twoFresh s).2.2 =
        .ok (s₃, (twoFresh s).2.2) ∧
      getNode s₃ ((twoFresh s).2.1) =
        ⟨false, (twoFresh s).2.1, Link.ref ((twoFresh s).2.2)⟩ ∧
      getNode s₃ ((twoFresh s).2.2) =
        ⟨false, (twoFresh s).2.1, Link.missing⟩ ∧
      (getNode s₃ ((twoFresh s).2.2)).root =
        (getNode s₃ ((twoFresh s).2.1)).root := by
  obtain ⟨ha, hb⟩ := twoFresh_ids s
  rw [ha, hb]
  obtain ⟨s₃, hr, hA, hB⟩ := twoFresh_rshift_nodes s
  exact ⟨s₃, hr, hA, hB, by rw [hA, hB]⟩

/-- Claim C10: a freshly constructed unit is its own one-node chain: its
`_root` field is the unit itself and its `_next` field is the MISSING
sentinel, which is distinct from Python `None`; and after chaining two
fresh units `a >> b`, `a._root` is still `a` and `b._next` is still
MISSING. -/
theorem fresh_unit_root_and_missing (s : UStore) (isFin : Bool) :
    getNode (mkUnit isFin s).1 (mkUnit isFin s).2 =
      ⟨isFin, (mkUnit isFin s).2, Link.missing⟩ ∧
    Link.missing ≠ Link.noneV ∧
    (∃ s₃ : UStore,
      rshift (twoFresh s).1 (twoFresh s).2.1 (twoFresh s).2.2 =
        .ok (s₃, (twoFresh s).2.2) ∧
      (getNode s₃ ((twoFresh s).2.1)).root = (twoFresh s).2.1 ∧
      (getNode s₃ ((twoFresh s).2.2)).next = Link.missing) := by
  obtain ⟨ha, hb⟩ := twoFresh_ids s
  rw [ha, hb]
  obtain ⟨s₃, hr, hA, hB⟩ := twoFresh_rshift_nodes s
  exact ⟨getNode_append_self s _, by simp, s₃, hr, by rw [hA], by rw [hB]⟩

/-- Claim C3: chain-construction errors are raised at the moment of
chaining, independent of any later execution: for any store, a unit whose
`_next` is already assigned raises the reassignment error when chained
again; a FinalUnit raises the final-unit error when anything is chained
after it; and chaining a chain's tail back onto its root (the situation
produced by `a >> b >> ... >> a`, where the root has a `_next` assigned)
raises the reassignment error. -/
theorem chain_construction_errors :
    (∀ (s : UStore) (a c : Nat), (getNode s a).isFinal = false →
      (getNode s a).next ≠ Link.missing →
      rshift s a c = .error PyErr.cannotReassignUnitError) ∧
    (∀ (s : UStore) (f u : Nat), (getNode s f).isFinal = true →
      rshift s f u = .error PyErr.finalUnitError) ∧
    (∀ (s : UStore) (t a : Nat), (getNode s t).isFinal = false →
      (getNode s t).next = Link.missing →
      (getNode s a).root = a → (getNode s a).next ≠ Link.missing →
      rshift s t a = .error PyErr.cannotReassignUnitError) := by
  refine ⟨?_, ?_, ?_⟩ <;> intros <;> simp_all [rshift]

/-- Concrete instance of claim C3: over the store holding the chain
`unit0 >> unit1` plus a fresh FinalUnit `unit2`, re-chaining `unit0`
raises the reassignment error, chaining after `unit2` raises the
final-unit error, and `unit1 >> unit0` (closing the chain back on its
root, as in `a >> b >> a`) raises the reassignment error. -/
theorem chain_construction_errors_witness :
    rshift [⟨false, 0, Link.ref 1⟩, ⟨false, 0, Link.missing⟩,
        ⟨true, 2, Link.missing⟩] 0 2 =
      .error PyErr.cannotReassignUnitError ∧
    rshift [⟨false, 0, Link.ref 1⟩, ⟨false, 0, Link.missing⟩,
        ⟨true, 2, Link.missing⟩] 2 0 =
      .error PyErr.finalUnitError ∧
    rshift [⟨false, 0, Link.ref 1⟩, ⟨false, 0, Link.missing⟩,
        ⟨true, 2, Link.missing⟩] 1 0 =
      .error PyErr.cannotReassignUnitError :=
  ⟨chain_construction_errors.1 _ 0 2 (by decide) (by decide),
    chain_construction_errors.2.1 _ 2 0 (by decide),
    chain_construction_errors.2.2 _ 1 0 (by decide) (by decide)
      (by decide) (by decide)⟩

/-- Assembles a flow of `n + 1` freshly constructed non-final units over
a store, chaining each new unit onto the current tail with `>>` exactly
as `u0 >> u1 >> ... >> un` does.  Returns the final store, the first
unit's id and the tail handle returned by the last `>>`.  (The error arm
is unreachable: chaining a fresh unit onto the tail always succeeds, as
the invariant lemma below proves.) -/
def allocChain : UStore → Nat → UStore × Nat × Nat
  | s, 0 => ((mkUnit false s).1, (mkUnit false s).2, (mkUnit false s).2)
  | s, n + 1 =>
    let q := allocChain s n
    let p := mkUnit false q.1
    match rshift p.1 q.2.2 p.2 with
    | .ok r => (r.1, q.2.1, r.2)
    | .error _ => (p.1, q.2.1, q.2.2)

theorem allocChain_invariant (s : UStore) (n : Nat) :
    (allocChain s n).1.length = s.length + n + 1 ∧
    (allocChain s n).2.1 = s.length ∧
    (allocChain s n).2.2 = s.length + n ∧
    getNode (allocChain s n).1 (s.length + n) =
      ⟨false, s.length, Link.missing⟩ := by
  induction n with
  | zero =>
    refine ⟨by simp [allocChain, mkUnit], rfl, rfl, ?_⟩
    simpa [allocChain, mkUnit] using getNode_append_self s _
  | succ n ih =>
    obtain ⟨ihlen, ihhead, ihtail, ihnode⟩ := ih
    have htail_lt : s.length + n < (allocChain s n).1.length := by omega
    have hna : getNode ((allocChain s n).1 ++
        [(⟨false, (allocChain s n).1.length, Link.missing⟩ : UNode)])
        (s.length + n) = ⟨false, s.length, Link.missing⟩ := by
      rw [getNode_append_lt _ _ htail_lt, ihnode]
    have hnb := getNode_append_self (allocChain s n).1
      (⟨false, (allocChain s n).1.length, Link.missing⟩ : UNode)
    have hne : (allocChain s n).1.length ≠ s.length + n := by omega
    have hrs : rshift ((allocChain s n).1 ++
        [(⟨false, (allocChain s n).1.length, Link.missing⟩ : UNode)])
        (s.length + n) (allocChain s n).1.length =
        .ok (((((allocChain s n).1 ++
            [(⟨false, (allocChain s n).1.length,
              Link.missing⟩ : UNode)]).set
              (s.length + n)
              (⟨false, s.length,
                Link.ref (allocChain s n).1.length⟩ : UNode)).set
            (allocChain s n).1.length
            (⟨false, s.length, Link.missing⟩ : UNode)),
          (allocChain s n).1.length) := by
      simp only [rshift, hna, hnb]
      rw [getNode_set_ne _ _ _ hne, hnb]
      simp
    have hstep : allocChain s (n + 1) =
        (((((allocChain s n).1 ++
            [(⟨false, (allocChain s n).1.length,
              Link.missing⟩ : UNode)]).set
              (s.length + n)
              (⟨false, s.length,
                Link.ref (allocChain s n).1.length⟩ : UNode)).set
            (allocChain s n).1.length
            (⟨false, s.length, Link.missing⟩ : UNode)),
          s.length, (allocChain s n).1.length) := by
      simp only [allocChain, mkUnit, ihtail, hrs, ihhead]
    rw [hstep]
    have hidx : s.length + (n + 1) = (allocChain s n).1.length := by omega
    refine ⟨?_, rfl,
      by show (allocChain s n).1.length = s.length + (n + 1); omega, ?_⟩
    · simp only [List.length_set, List.length_append,
        List.length_singleton, ihlen]
      omega
    · rw [hidx]
      exact getNode_set_self _ _ _ (by
        simp only [List.length_set, List.length_append,
          List.length_singleton, ihlen]
        omega)

/-- Claim C7: for a chain of any length assembled with `>>`, calling
`build()` on the tail handle returns the chain's root node - the first
unit - and `build()` is idempotent: it performs no mutation of the store
and repeated calls return the same root. -/
theorem buildFlow_root_idempotent :
    (∀ (s : UStore) (n : Nat),
      buildFlow (allocChain s n).1 (allocChain s n).2.2 =
        ((allocChain s n).1, (allocChain s n).2.1)) ∧
    (∀ (s : UStore) (i : Nat),
      (buildFlow s i).1 = s ∧
      buildFlow (buildFlow s i).1 i = buildFlow s i) := by
  constructor
  · intro s n
    obtain ⟨_, ihhead, ihtail, ihnode⟩ := allocChain_invariant s n
    rw [buildFlow, ihtail, ihnode, ihhead]
  · exact fun s i => ⟨rfl, rfl⟩

/-- Claim C5: a producer proxy's `add` fails with the
data-point-not-produced error, with nothing forwarded to the sink,
whenever a declared spec is missing among the supplied DataPoints (in
particular for `add()` with no arguments and a non-empty `_produces`) or
an undeclared DataPoint is supplied; when exactly the declared specs are
supplied the DataPoints are forwarded to the sink's `add` exactly once,
so no partial writes ever occur. -/
theorem producerAdd_contract {V : Type} (produces : List DataPointSpec)
    (datapoints : List (DataPoint V)) (sink : SinkLog V) :
    ((∃ sp ∈ produces, ¬ sp ∈ datapoints.map DataPoint.spec) →
      producerAdd produces datapoints sink =
        (sink, .error PyErr.dataPointIsNotProducedError)) ∧
    ((∃ d ∈ datapoints, ¬ d.spec ∈ produces) →
      producerAdd produces datapoints sink =
        (sink, .error PyErr.dataPointIsNotProducedError)) ∧
    (produces ≠ [] →
      producerAdd produces [] sink =
        (sink, .error PyErr.dataPointIsNotProducedError)) ∧
    ((∀ d ∈ datapoints, d.spec ∈ produces) →
      (∀ sp ∈ produces, sp ∈ datapoints.map DataPoint.spec) →
      producerAdd produces datapoints sink =
        (sink ++ [datapoints], .ok ())) := by
  refine ⟨?_, ?_, ?_, ?_⟩
  · rintro ⟨sp, hsp, hmem⟩
    have h2 : ∃ x ∈ produces, ∀ y ∈ datapoints, ¬ y.spec = x :=
      ⟨sp, hsp, fun y hy hc =>
        hmem (hc ▸ List.mem_map_of_mem DataPoint.spec hy)⟩
    by_cases h1 : ∃ d ∈ datapoints, d.spec ∉ produces
    · simp [producerAdd, h1]
    · simp [producerAdd, h1, h2]
  · rintro ⟨d, hd, hmem⟩
    have h1 : ∃ x ∈ datapoints, x.spec ∉ produces := ⟨d, hd, hmem⟩
    simp [producerAdd, h1]
  · intro hne
    have h2 : ∃ x ∈ produces,
        ∀ y ∈ ([] : List (DataPoint V)), ¬ y.spec = x := by
      cases produces with
      | nil => exact absurd rfl hne
      | cons p ps =>
        exact ⟨p, List.mem_cons_self _ _,
          fun y hy => absurd hy (List.not_mem_nil y)⟩
    obtain ⟨x, hx, _⟩ := h2
    simp [producerAdd]
    exact ⟨x, hx⟩
  · intro hdecl hall
    have h1 : ¬ ∃ x ∈ datapoints, x.spec ∉ produces := by
      rintro ⟨x, hx, hc⟩
      exact hc (hdecl x hx)
    have h2 : ¬ ∃ x ∈ produces, ∀ y ∈ datapoints, ¬ y.spec = x := by
      rintro ⟨x, hx, hc⟩
      obtain ⟨y, hy, hyx⟩ := List.mem_map.1 (hall x hx)
      exact hc y hy hyx
    simp [producerAdd, h1, h2]

/-- Concrete instance of claim C5: a producer declaring one spec fails
`add()` with no arguments, fails on an undeclared DataPoint, and forwards
exactly once when exactly the declared spec is supplied. -/
theorem producerAdd_contract_witness :
    producerAdd [⟨"fake_datapoint", "int"⟩] ([] : List (DataPoint Nat))
        [] =
      ([], .error PyErr.dataPointIsNotProducedError) ∧
    producerAdd [⟨"fake_datapoint", "int"⟩]
        [⟨⟨"other_datapoint", "int"⟩, (1 : Nat)⟩] [] =
      ([], .error PyErr.dataPointIsNotProducedError) ∧
    producerAdd [⟨"fake_datapoint", "int"⟩]
        [⟨⟨"fake_datapoint", "int"⟩, (1 : Nat)⟩] [] =
      ([[⟨⟨"fake_datapoint", "int"⟩, 1⟩]], .ok ()) :=
  ⟨(producerAdd_contract [⟨"fake_datapoint", "int"⟩] [] []).2.2.1
      (by decide),
    (producerAdd_contract [⟨"fake_datapoint", "int"⟩]
        [⟨⟨"other_datapoint", "int"⟩, 1⟩] []).2.1
      ⟨⟨⟨"other_datapoint", "int"⟩, 1⟩, by decide, by decide⟩,
    (producerAdd_contract [⟨"fake_datapoint", "int"⟩]
        [⟨⟨"fake_datapoint", "int"⟩, 1⟩] []).2.2.2
      (by decide) (by decide)⟩

/-- Claim C8: the asynchronous variant implements the same contract as
the synchronous one: the async `BaseUnitProxy.do_with` delegates the call
unchanged to the wrapped unit and returns its Result with no added
logic, the async producer proxy's `add` computes exactly the same
outcome as the synchronous one, and on a validation failure it raises
before the sink's `add` is awaited (no suspension point occurs). -/
theorem aio_mirrors_sync {Ctx OUT V : Type} :
    (∀ (unit : Ctx → AsyncM (Result OUT)) (context : Ctx),
      doWith unit context = unit context) ∧
    (∀ (produces : List DataPointSpec)
        (datapoints : List (DataPoint V)) (sink : SinkLog V),
      (aioProducerAdd produces datapoints sink).run =
        producerAdd produces datapoints sink) ∧
    (∀ (produces : List DataPointSpec)
        (datapoints : List (DataPoint V)) (sink : SinkLog V),
      (producerAdd produces datapoints sink).2 =
        .error PyErr.dataPointIsNotProducedError →
      (aioProducerAdd produces datapoints sink).awaitCount = 0) := by
  refine ⟨fun u c => rfl, fun P dps sink => ?_, fun P dps sink h => ?_⟩
  · by_cases h1 : ∃ d ∈ dps, d.spec ∉ P
    · simp [aioProducerAdd, producerAdd, h1, AsyncM.run]
    · by_cases h2 : ∃ x ∈ P, ∀ y ∈ dps, ¬ y.spec = x
      · simp [aioProducerAdd, producerAdd, h1, h2, AsyncM.run]
      · simp [aioProducerAdd, producerAdd, h1, h2, AsyncM.run]
  · by_cases h1 : ∃ d ∈ dps, d.spec ∉ P
    · simp [aioProducerAdd, h1, AsyncM.awaitCount]
    · by_cases h2 : ∃ x ∈ P, ∀ y ∈ dps, ¬ y.spec = x
      · simp [aioProducerAdd, h1, h2, AsyncM.awaitCount]
      · exact absurd h (by simp [producerAdd, h1, h2])

/-- Concrete instance of claim C8: the async producer proxy declaring
one spec and given no DataPoints has the same failing outcome as the
synchronous one and reaches no suspension point before raising. -/
theorem aio_mirrors_sync_witness :
    (aioProducerAdd [⟨"fake_datapoint", "int"⟩]
        ([] : List (DataPoint Nat)) []).run =
      producerAdd [⟨"fake_datapoint", "int"⟩] [] [] ∧
    (aioProducerAdd [⟨"fake_datapoint", "int"⟩]
        ([] : List (DataPoint Nat)) []).awaitCount = 0 ∧
    doWith (fun c : Nat => AsyncM.pure (Result.ok c)) 3 =
      AsyncM.pure (Result.ok 3) :=
  ⟨(@aio_mirrors_sync Nat Nat Nat).2.1
      [⟨"fake_datapoint", "int"⟩] [] [],
    (@aio_mirrors_sync Nat Nat Nat).2.2
      [⟨"fake_datapoint", "int"⟩] [] [] rfl,
    (@aio_mirrors_sync Nat Nat Nat).1 (fun c => AsyncM.pure (Result.ok c))
      3⟩
